import Mathlib

/-!
Verification development for the CASCADE memory system (dual-write storage
engine with temporal decay).

The definitions below are shallow embeddings of the JavaScript source:

* `calculateEffectiveImportance`, `sweepSelects`, `sweepLayer`, `touchRow`,
  `touchMemories` embed `server/decay.js` (`DecayEngine`);
* `escapeLikePattern`, `condParts`, `buildWhereClause`, `sanitizeOrderBy`,
  `runInsert`, `dualWrite`, `getLastInsertId` embed `server/database.js`;
* definitions whose doc comment starts with `Modelled from the spec:` embed
  v2.2 code of the repository that is not present in the source dump (the
  v2.2 revisions of `server/tools.js` and `server/database.js`); they follow
  the specification text and the behavior pinned down by `tests/decay.test.js`.

JavaScript numbers are modelled as real numbers, SQL `NULL`-able columns as
`Option` values, and thrown errors as `Except` results.
-/

/-- Decay configuration. Modelled from the spec: the `DECAY_CONFIG` record of
the v2.2 `server/database.js` (absent from the dump). Default values are the
ones documented in the Docker guide and asserted by `tests/decay.test.js`:
base rate 0.01/day, visibility threshold 0.1, immortal threshold 0.9,
sweep batch size 1000. -/
structure DecayConfig where
  BASE_RATE : ℝ
  THRESHOLD : ℝ
  IMMORTAL_THRESHOLD : ℝ
  SWEEP_BATCH_SIZE : ℕ

/-- The default decay configuration (all environment variables unset). -/
def defaultDecayConfig : DecayConfig :=
  { BASE_RATE := 0.01, THRESHOLD := 0.1, IMMORTAL_THRESHOLD := 0.9, SWEEP_BATCH_SIZE := 1000 }

/-- One row of a layer's `memories` table (schema of `server/database.js`
after the v2.2 additive migration).  `NULL`-able columns are `Option`s. -/
structure MemoryRow where
  id : ℕ
  timestamp : ℝ
  content : String
  event : String
  context : String
  emotional_intensity : ℝ
  importance : ℝ
  metadata : String
  last_accessed : Option ℝ
  effective_importance : Option ℝ
  access_count : Option ℕ

/-- Embedding of `DecayEngine.calculateEffectiveImportance` (`server/decay.js`).
The JavaScript `lastAccessed || now` replaces every falsy `lastAccessed` with
`now`; for a numeric column the falsy values are `NULL` (here `none`) and `0`,
which is why `some 0` is mapped to `now` as well. -/
noncomputable def calculateEffectiveImportance (cfg : DecayConfig) (importance : ℝ)
    (lastAccessed : Option ℝ) (now : ℝ) : ℝ :=
  if cfg.IMMORTAL_THRESHOLD ≤ importance then importance
  else
    let safeLastAccessed : ℝ :=
      match lastAccessed with
      | none => now
      | some a => if a = 0 then now else a
    let daysSinceAccess := (now - safeLastAccessed) / 86400
    if daysSinceAccess ≤ 0 then importance
    else importance * Real.exp (-(cfg.BASE_RATE * (1 - importance)) * daysSinceAccess)

/-- The effective-importance formula exactly as the specification words it:
for importance `i` at or above the immortal threshold the value is `i`,
otherwise `i * exp(-(r * (1 - i)) * max 0 ((t - a) / 86400))`.  Used only to
compare the specification's formula with the source function. -/
noncomputable def specEffectiveImportance (cfg : DecayConfig) (i a t : ℝ) : ℝ :=
  if cfg.IMMORTAL_THRESHOLD ≤ i then i
  else i * Real.exp (-(cfg.BASE_RATE * (1 - i)) * max 0 ((t - a) / 86400))

/-- C1, counterexample.  At last-accessed time `a = 0` (a valid timestamp) the
source function returns the importance unchanged, while the specification's
formula prescribes decay over `(t - 0) / 86400` days, so the two differ at
importance `0.5`, `a = 0`, `t = 86400` under the default configuration. -/
theorem calculateEffectiveImportance_zero_ne_spec :
    calculateEffectiveImportance defaultDecayConfig 0.5 (some 0) 86400
      ≠ specEffectiveImportance defaultDecayConfig 0.5 0 86400 := by
  have hcode : calculateEffectiveImportance defaultDecayConfig 0.5 (some 0) 86400 = 0.5 := by
    unfold calculateEffectiveImportance defaultDecayConfig
    norm_num
  have hmax : max (0 : ℝ) ((86400 - 0) / 86400) = 1 := by norm_num
  have hspec : specEffectiveImportance defaultDecayConfig 0.5 0 86400
      = 0.5 * Real.exp (-(0.01 * (1 - 0.5)) * 1) := by
    unfold specEffectiveImportance defaultDecayConfig
    rw [if_neg (by norm_num), hmax]
  have hexp : Real.exp (-(0.01 * (1 - 0.5)) * 1) < 1 :=
    Real.exp_lt_one_iff.mpr (by norm_num)
  rw [hcode, hspec]
  nlinarith [hexp]

/-- C1, amended.  For every strictly positive last-accessed time `a` the source
function agrees exactly with the specification's formula, and a `NULL`
last-accessed (`none`) yields the importance unchanged (no decay).  The
amendment excludes `a = 0`, where the JavaScript falsy check treats the row as
accessed now (see the counterexample and C10). -/
theorem calculateEffectiveImportance_eq_spec (cfg : DecayConfig) (i a t : ℝ)
    (ha : 0 < a) :
    calculateEffectiveImportance cfg i (some a) t = specEffectiveImportance cfg i a t
      ∧ calculateEffectiveImportance cfg i none t = i := by
  constructor
  · by_cases him : cfg.IMMORTAL_THRESHOLD ≤ i
    · simp [calculateEffectiveImportance, specEffectiveImportance, him]
    · have hane : a ≠ 0 := ne_of_gt ha
      unfold calculateEffectiveImportance specEffectiveImportance
      rw [if_neg him, if_neg him]
      simp only [hane, if_false]
      by_cases hd : (t - a) / 86400 ≤ 0
      · rw [if_pos hd, max_eq_left hd]
        simp [Real.exp_zero]
      · rw [if_neg hd, max_eq_right (le_of_lt (lt_of_not_le hd))]
  · by_cases him : cfg.IMMORTAL_THRESHOLD ≤ i
    · simp [calculateEffectiveImportance, him]
    · unfold calculateEffectiveImportance
      rw [if_neg him]
      norm_num

/-- C1, witness for the amended theorem at a concrete input. -/
theorem calculateEffectiveImportance_eq_spec_witness :
    (0 : ℝ) < 86400
      ∧ (calculateEffectiveImportance defaultDecayConfig 0.5 (some 86400) 172800
            = specEffectiveImportance defaultDecayConfig 0.5 86400 172800
          ∧ calculateEffectiveImportance defaultDecayConfig 0.5 none 172800 = 0.5) :=
  ⟨by norm_num,
    calculateEffectiveImportance_eq_spec defaultDecayConfig 0.5 86400 172800 (by norm_num)⟩

/-- C10.  A last-accessed value of exactly `0` (the epoch, a valid timestamp)
is treated like `NULL` by the source function: `lastAccessed || now` replaces
the falsy `0` with `now`, so no decay is applied and the importance is
returned unchanged for every evaluation time. -/
theorem calculateEffectiveImportance_epoch_no_decay (cfg : DecayConfig) (i t : ℝ)
    (h : i < cfg.IMMORTAL_THRESHOLD) :
    calculateEffectiveImportance cfg i (some 0) t = i := by
  have him : ¬ cfg.IMMORTAL_THRESHOLD ≤ i := not_le.mpr h
  unfold calculateEffectiveImportance
  rw [if_neg him]
  norm_num

/-- C10, witness at a concrete input. -/
theorem calculateEffectiveImportance_epoch_no_decay_witness :
    (0.5 : ℝ) < defaultDecayConfig.IMMORTAL_THRESHOLD
      ∧ calculateEffectiveImportance defaultDecayConfig 0.5 (some 0) 31536000 = 0.5 :=
  ⟨by norm_num [defaultDecayConfig],
    calculateEffectiveImportance_epoch_no_decay defaultDecayConfig 0.5 31536000
      (by norm_num [defaultDecayConfig])⟩

/-- Selection predicate of the sweep query (`DecayEngine.sweepLayer` in
`server/decay.js`): `WHERE importance < IMMORTAL_THRESHOLD AND last_accessed
IS NOT NULL`. -/
def sweepSelects (cfg : DecayConfig) (row : MemoryRow) : Prop :=
  row.importance < cfg.IMMORTAL_THRESHOLD ∧ row.last_accessed ≠ none

noncomputable instance (cfg : DecayConfig) (row : MemoryRow) :
    Decidable (sweepSelects cfg row) := by
  unfold sweepSelects
  infer_instance

/-- Embedding of `DecayEngine.sweepLayer` (`server/decay.js`): select up to
`SWEEP_BATCH_SIZE` rows matching `sweepSelects`, recompute their effective
importance, and apply the update-by-id batch to the store. -/
noncomputable def sweepLayer (cfg : DecayConfig) (st : List MemoryRow) (now : ℝ) :
    List MemoryRow :=
  let selected := (st.filter (fun r => decide (sweepSelects cfg r))).take cfg.SWEEP_BATCH_SIZE
  let ids := selected.map MemoryRow.id
  st.map (fun r =>
    if r.id ∈ ids then
      { r with effective_importance := some (calculateEffectiveImportance cfg r.importance r.last_accessed now) }
    else r)

/-- Modelled from the spec: the v2.2 `saveMemory` insert (`server/tools.js`,
absent from the dump) initializes `last_accessed = now`,
`effective_importance = importance` and `access_count = 0` on write, as pinned
down by the save tests of `tests/decay.test.js`. -/
def mkSavedRow (id : ℕ) (now : ℝ) (content ctx md : String) (ei imp : ℝ) : MemoryRow :=
  { id := id, timestamp := now, content := content, event := content, context := ctx,
    emotional_intensity := ei, importance := imp, metadata := md,
    last_accessed := some now, effective_importance := some imp, access_count := some 0 }

/-- In a store whose id column is duplicate-free, two member rows with the
same id are the same row. -/
theorem eq_of_mem_of_nodup_ids {st : List MemoryRow}
    (h : (st.map MemoryRow.id).Nodup) {a b : MemoryRow}
    (ha : a ∈ st) (hb : b ∈ st) (hab : a.id = b.id) : a = b := by
  induction st with
  | nil => cases ha
  | cons x xs ih =>
    rw [List.map_cons, List.nodup_cons] at h
    rcases List.mem_cons.mp ha with rfl | ha2
    · rcases List.mem_cons.mp hb with rfl | hb2
      · rfl
      · exact absurd (hab ▸ List.mem_map_of_mem MemoryRow.id hb2) h.1
    · rcases List.mem_cons.mp hb with rfl | hb2
      · exact absurd (hab ▸ List.mem_map_of_mem MemoryRow.id ha2) h.1
      · exact ih h.2 ha2 hb2

/-- C4.  A record at or above the immortal threshold keeps
`effective_importance = importance` everywhere: the (spec-modelled) write path
stores `importance` as the effective importance, recomputation returns the
importance at every evaluation time, the sweep's selection predicate never
selects the record, and a sweep leaves the record unchanged in the store (its
id never appears in the update batch). -/
theorem immortal_records_invariant (cfg : DecayConfig) (row : MemoryRow)
    (st : List MemoryRow) (t : ℝ)
    (him : cfg.IMMORTAL_THRESHOLD ≤ row.importance)
    (hmem : row ∈ st) (hnodup : (st.map MemoryRow.id).Nodup) :
    (mkSavedRow row.id row.timestamp row.content row.context row.metadata
        row.emotional_intensity row.importance).effective_importance
      = some ((mkSavedRow row.id row.timestamp row.content row.context row.metadata
          row.emotional_intensity row.importance).importance)
    ∧ calculateEffectiveImportance cfg row.importance row.last_accessed t = row.importance
    ∧ ¬ sweepSelects cfg row
    ∧ row ∈ sweepLayer cfg st t
    ∧ ∀ r2 ∈ sweepLayer cfg st t, r2.id = row.id → r2 = row := by
  have hnot : ¬ sweepSelects cfg row := by
    intro hsel
    exact absurd hsel.1 (not_lt.mpr him)
  have hid_not : row.id ∉
      (((st.filter (fun r => decide (sweepSelects cfg r))).take
          cfg.SWEEP_BATCH_SIZE).map MemoryRow.id) := by
    intro hin
    rcases List.mem_map.mp hin with ⟨r, hr, hrid⟩
    have hr_filter : r ∈ st.filter (fun r => decide (sweepSelects cfg r)) :=
      List.mem_of_mem_take hr
    have hr_st : r ∈ st := List.mem_of_mem_filter hr_filter
    have hr_sel : sweepSelects cfg r := by
      have := List.of_mem_filter hr_filter
      exact of_decide_eq_true this
    have : r = row := eq_of_mem_of_nodup_ids hnodup hr_st hmem hrid
    exact hnot (this ▸ hr_sel)
  refine ⟨rfl, ?_, hnot, ?_, ?_⟩
  · unfold calculateEffectiveImportance
    rw [if_pos him]
  · unfold sweepLayer
    have : (fun r =>
        if r.id ∈ (((st.filter (fun r => decide (sweepSelects cfg r))).take
            cfg.SWEEP_BATCH_SIZE).map MemoryRow.id) then
          { r with effective_importance := some (calculateEffectiveImportance cfg r.importance r.last_accessed t) }
        else r) row = row := if_neg hid_not
    exact this ▸ List.mem_map_of_mem _ hmem
  · intro r2 hr2 hr2id
    unfold sweepLayer at hr2
    rcases List.mem_map.mp hr2 with ⟨r, hr_st, hr_eq⟩
    by_cases hin : r.id ∈ (((st.filter (fun r => decide (sweepSelects cfg r))).take
        cfg.SWEEP_BATCH_SIZE).map MemoryRow.id)
    · rw [if_pos hin] at hr_eq
      have hrid : r.id = row.id := by
        have : r2.id = r.id := by rw [← hr_eq]
        rw [← this, hr2id]
      exact absurd (hrid ▸ hin) hid_not
    · rw [if_neg hin] at hr_eq
      have hr_row : r = row :=
        eq_of_mem_of_nodup_ids hnodup hr_st hmem (by rw [hr_eq, hr2id])
      rw [← hr_eq, hr_row]

/-- A concrete immortal row used by witnesses. -/
def immortalRow : MemoryRow :=
  { id := 1, timestamp := 1000, content := "core truth", event := "core truth",
    context := "", emotional_intensity := 0.5, importance := 0.95,
    metadata := "{}", last_accessed := some 1000, effective_importance := some 0.95,
    access_count := some 0 }

/-- A concrete mortal row used by witnesses. -/
def mortalRow : MemoryRow :=
  { id := 2, timestamp := 2000, content := "note", event := "note",
    context := "", emotional_intensity := 0.5, importance := 0.5,
    metadata := "{}", last_accessed := some 2000, effective_importance := some 0.5,
    access_count := some 0 }

/-- C4, witness at a concrete store with one immortal and one mortal row. -/
theorem immortal_records_invariant_witness :
    defaultDecayConfig.IMMORTAL_THRESHOLD ≤ immortalRow.importance
      ∧ (calculateEffectiveImportance defaultDecayConfig immortalRow.importance
            immortalRow.last_accessed 500000 = immortalRow.importance
          ∧ ¬ sweepSelects defaultDecayConfig immortalRow
          ∧ immortalRow ∈ sweepLayer defaultDecayConfig [immortalRow, mortalRow] 500000) := by
  have him : defaultDecayConfig.IMMORTAL_THRESHOLD ≤ immortalRow.importance := by
    norm_num [defaultDecayConfig, immortalRow]
  have hmem : immortalRow ∈ [immortalRow, mortalRow] := by simp
  have hnodup : (([immortalRow, mortalRow].map MemoryRow.id)).Nodup := by
    simp [immortalRow, mortalRow]
  have h := immortal_records_invariant defaultDecayConfig immortalRow
    [immortalRow, mortalRow] 500000 him hmem hnodup
  exact ⟨him, h.2.1, h.2.2.1, h.2.2.2.1⟩

/-- Embedding of the per-row effect of `DecayEngine.touchMemories`
(`server/decay.js`): `UPDATE memories SET last_accessed = ?, access_count =
COALESCE(access_count, 0) + 1 WHERE id = ?` with the current time as
parameter. -/
def touchRow (now : ℝ) (r : MemoryRow) : MemoryRow :=
  { r with last_accessed := some now, access_count := some (r.access_count.getD 0 + 1) }

/-- Embedding of `DecayEngine.touchMemories` (`server/decay.js`): one
update-by-id statement per recalled id, applied as a batch to the store. -/
def touchMemories (st : List MemoryRow) (ids : List ℕ) (now : ℝ) : List MemoryRow :=
  st.map (fun r => if r.id ∈ ids then touchRow now r else r)

/-- Modelled from the spec: the v2.2 `recallMemories` (`server/tools.js`,
absent from the dump) calls `DecayEngine.touchMemories` with the layer and the
ids of the records it is about to return.  In the source the touch call sits
in a `try`/`catch` whose handler only logs, so the recall result reaches the
caller whatever the touch outcome; the first component is the returned record
list, the second the touched store. -/
def recallWithTouch (results : List MemoryRow) (st : List MemoryRow) (now : ℝ) :
    List MemoryRow × List MemoryRow :=
  (results, touchMemories st (results.map MemoryRow.id) now)

/-- Embedding of the `try`/`catch` around `dualWriteBatch` in
`DecayEngine.touchMemories`: a failing batch write is logged and swallowed, a
successful one as well; the caller always receives the recall results. -/
def touchOutcomeToCaller (results : List MemoryRow) (outcome : Except String Unit) :
    Except String (List MemoryRow) :=
  match outcome with
  | Except.ok _ => Except.ok results
  | Except.error _ => Except.ok results

/-- C5.  Touch semantics of recall: every returned record's row in the store
is replaced by its touched version, whose `access_count` is the old count plus
one and whose `last_accessed` is the touch time, which is at or after the
recall's invocation time; and the touch outcome (success or error) never
changes what the caller receives. -/
theorem recall_touch_increments (results st : List MemoryRow) (now tInv : ℝ)
    (r : MemoryRow) (c : ℕ) (hmem : r ∈ st) (hid : r.id ∈ results.map MemoryRow.id)
    (hc : r.access_count = some c) (ht : tInv ≤ now) :
    touchRow now r ∈ (recallWithTouch results st now).2
    ∧ (touchRow now r).access_count = some (c + 1)
    ∧ (touchRow now r).last_accessed = some now
    ∧ tInv ≤ now
    ∧ ∀ e : Except String Unit, touchOutcomeToCaller results e = Except.ok results := by
  refine ⟨?_, ?_, rfl, ht, ?_⟩
  · have : (fun r2 => if r2.id ∈ results.map MemoryRow.id then touchRow now r2 else r2) r
        = touchRow now r := if_pos hid
    exact this ▸ List.mem_map_of_mem _ hmem
  · simp [touchRow, hc]
  · intro e
    cases e <;> rfl

/-- C5, witness at a concrete store, record and times. -/
theorem recall_touch_increments_witness :
    mortalRow ∈ [mortalRow]
      ∧ mortalRow.id ∈ ([mortalRow].map MemoryRow.id)
      ∧ mortalRow.access_count = some 0
      ∧ (3000 : ℝ) ≤ 3600
      ∧ (touchRow 3600 mortalRow ∈ (recallWithTouch [mortalRow] [mortalRow] 3600).2
          ∧ (touchRow 3600 mortalRow).access_count = some (0 + 1)
          ∧ (touchRow 3600 mortalRow).last_accessed = some 3600) := by
  have hmem : mortalRow ∈ [mortalRow] := by simp
  have hid : mortalRow.id ∈ ([mortalRow].map MemoryRow.id) := by simp
  have hc : mortalRow.access_count = some 0 := rfl
  have ht : (3000 : ℝ) ≤ 3600 := by norm_num
  have h := recall_touch_increments [mortalRow] [mortalRow] 3600 3000 mortalRow 0
    hmem hid hc ht
  exact ⟨hmem, hid, hc, ht, h.1, h.2.1, h.2.2.1⟩

/-- `COALESCE(effective_importance, importance)` of a row. -/
def coalesceImportance (r : MemoryRow) : ℝ :=
  r.effective_importance.getD r.importance

/-- The recall ordering of the adopted contract, as a `comes no later than`
relation: higher `COALESCE(effective_importance, importance)` first, ties
broken by higher `timestamp` first. -/
def recallLE (a b : MemoryRow) : Prop :=
  coalesceImportance b < coalesceImportance a
    ∨ (coalesceImportance a = coalesceImportance b ∧ b.timestamp ≤ a.timestamp)

noncomputable instance : DecidableRel recallLE := fun a b => by
  unfold recallLE
  infer_instance

instance : IsTotal MemoryRow recallLE := by
  constructor
  intro a b
  rcases lt_trichotomy (coalesceImportance a) (coalesceImportance b) with h | h | h
  · exact Or.inr (Or.inl h)
  · rcases le_total b.timestamp a.timestamp with ht | ht
    · exact Or.inl (Or.inr ⟨h, ht⟩)
    · exact Or.inr (Or.inr ⟨h.symm, ht⟩)
  · exact Or.inl (Or.inl h)

instance : IsTrans MemoryRow recallLE := by
  constructor
  intro a b c hab hbc
  rcases hab with hab | ⟨hab, hab2⟩ <;> rcases hbc with hbc | ⟨hbc, hbc2⟩
  · exact Or.inl (lt_trans hbc hab)
  · exact Or.inl (hbc ▸ hab)
  · exact Or.inl (hab ▸ hbc)
  · exact Or.inr ⟨hab.trans hbc, le_trans hbc2 hab2⟩

/-- Modelled from the spec: the v2.2.2 `recallMemories` (`server/tools.js`,
absent from the dump; the present copy is the legacy revision).  The adopted
contract, also recorded in the v2.2.2 changelog, merges the per-layer matches
and returns them sorted by `COALESCE(effective_importance, importance) DESC,
timestamp DESC`, truncated to the validated limit. -/
noncomputable def recallMemoriesV22 (gathered : List MemoryRow) (limit : ℕ) :
    List MemoryRow :=
  (List.insertionSort recallLE gathered).take limit

/-- C2.  The record list returned by the v2.2 recall contract is sorted by
`COALESCE(effective_importance, importance)` descending with ties broken by
`timestamp` descending, is truncated to the validated limit, and contains only
gathered records. -/
theorem recallMemoriesV22_sorted_truncated (gathered : List MemoryRow) (limit : ℕ) :
    List.Sorted recallLE (recallMemoriesV22 gathered limit)
    ∧ (recallMemoriesV22 gathered limit).length ≤ limit
    ∧ ∀ r ∈ recallMemoriesV22 gathered limit, r ∈ gathered := by
  refine ⟨?_, ?_, ?_⟩
  · exact (List.sorted_insertionSort recallLE gathered).sublist (List.take_sublist _ _)
  · rw [recallMemoriesV22, List.length_take]
    exact min_le_left _ _
  · intro r hr
    exact (List.perm_insertionSort recallLE gathered).mem_iff.mp (List.mem_of_mem_take hr)

/-- The structured filter payload recognized by `buildWhereClause`
(`server/database.js`); absent keys are `none`. -/
structure QueryFilters where
  importance_min : Option ℝ
  importance_max : Option ℝ
  emotional_intensity_min : Option ℝ
  emotional_intensity_max : Option ℝ
  timestamp_after : Option ℝ
  timestamp_before : Option ℝ
  content_contains : Option String
  context_contains : Option String
  id : Option ℕ

/-- The empty filter payload. -/
def emptyFilters : QueryFilters :=
  { importance_min := none, importance_max := none, emotional_intensity_min := none,
    emotional_intensity_max := none, timestamp_after := none, timestamp_before := none,
    content_contains := none, context_contains := none, id := none }

/-- Row-level meaning of an optional lower-bound condition (`column >= ?`). -/
def optLB (o : Option ℝ) (x : ℝ) : Prop :=
  match o with
  | none => True
  | some v => v ≤ x

/-- Row-level meaning of an optional upper-bound condition (`column <= ?`). -/
def optUB (o : Option ℝ) (x : ℝ) : Prop :=
  match o with
  | none => True
  | some v => x ≤ v

/-- `needle` occurs contiguously in `hay` (the meaning of `LIKE
'%needle%' ESCAPE ...` once the needle's wildcards are escaped). -/
def substringOf (needle hay : String) : Prop :=
  needle.data <:+: hay.data

/-- Row-level meaning of an optional substring condition over two columns
(`(event LIKE ? ... OR content LIKE ? ...)`). -/
def optContains2 (o : Option String) (a b : String) : Prop :=
  match o with
  | none => True
  | some s => substringOf s a ∨ substringOf s b

/-- Row-level meaning of an optional substring condition over one column. -/
def optContains1 (o : Option String) (a : String) : Prop :=
  match o with
  | none => True
  | some s => substringOf s a

/-- Row-level meaning of an optional id equality condition (`id = ?`). -/
def optIdEq (o : Option ℕ) (n : ℕ) : Prop :=
  match o with
  | none => True
  | some v => n = v

noncomputable instance (o : Option ℝ) (x : ℝ) : Decidable (optLB o x) := by
  cases o <;> (unfold optLB; infer_instance)

noncomputable instance (o : Option ℝ) (x : ℝ) : Decidable (optUB o x) := by
  cases o <;> (unfold optUB; infer_instance)

instance (needle hay : String) : Decidable (substringOf needle hay) := by
  unfold substringOf
  infer_instance

instance (o : Option String) (a b : String) : Decidable (optContains2 o a b) := by
  cases o <;> (unfold optContains2; infer_instance)

instance (o : Option String) (a : String) : Decidable (optContains1 o a) := by
  cases o <;> (unfold optContains1; infer_instance)

instance (o : Option ℕ) (n : ℕ) : Decidable (optIdEq o n) := by
  cases o <;> (unfold optIdEq; infer_instance)

/-- Row-level semantics of the WHERE conditions emitted by `buildWhereClause`
(`server/database.js`): the conjunction of the conditions for the present
filter keys. -/
def rowMatchesFilters (f : QueryFilters) (r : MemoryRow) : Prop :=
  optLB f.importance_min r.importance
    ∧ optUB f.importance_max r.importance
    ∧ optLB f.emotional_intensity_min r.emotional_intensity
    ∧ optUB f.emotional_intensity_max r.emotional_intensity
    ∧ optLB f.timestamp_after r.timestamp
    ∧ optUB f.timestamp_before r.timestamp
    ∧ optContains2 f.content_contains r.event r.content
    ∧ optContains1 f.context_contains r.context
    ∧ optIdEq f.id r.id

noncomputable instance (f : QueryFilters) (r : MemoryRow) :
    Decidable (rowMatchesFilters f r) := by
  unfold rowMatchesFilters
  infer_instance

/-- Row-level meaning of the decay-visibility condition
`(effective_importance IS NULL OR effective_importance >= THRESHOLD)`. -/
def decayVisible (cfg : DecayConfig) (r : MemoryRow) : Prop :=
  match r.effective_importance with
  | none => True
  | some v => cfg.THRESHOLD ≤ v

noncomputable instance (cfg : DecayConfig) (r : MemoryRow) :
    Decidable (decayVisible cfg r) := by
  unfold decayVisible
  cases r.effective_importance <;> infer_instance

/-- Modelled from the spec: the v2.2 `buildWhereClause`/`queryLayer`
(`server/database.js` and `server/tools.js`, absent from the dump; the copies
present are the pre-decay revisions) AND-conjoin the decay-visibility
condition to the compiled WHERE clause whenever the caller did not set
`include_decayed`.  This is the row-level predicate of the compiled WHERE. -/
def compiledRowPred (cfg : DecayConfig) (f : QueryFilters) (includeDecayed : Bool)
    (r : MemoryRow) : Prop :=
  rowMatchesFilters f r ∧ (includeDecayed = true ∨ decayVisible cfg r)

noncomputable instance (cfg : DecayConfig) (f : QueryFilters) (b : Bool) (r : MemoryRow) :
    Decidable (compiledRowPred cfg f b r) := by
  unfold compiledRowPred
  infer_instance

/-- The row set produced by the compiled WHERE clause of a recall or
query_layer request, before ordering and truncation. -/
noncomputable def queryLayerRows (cfg : DecayConfig) (f : QueryFilters)
    (includeDecayed : Bool) (st : List MemoryRow) : List MemoryRow :=
  st.filter (fun r => decide (compiledRowPred cfg f includeDecayed r))

/-- C3.  Without `include_decayed` the compiled WHERE omits every row whose
non-`NULL` effective importance is below the threshold, and a row passes it
exactly when it matches the other filters and is decay-visible; with
`include_decayed = true` a row passes exactly when it matches the other
filters. -/
theorem queryLayerRows_decay_visibility (cfg : DecayConfig) (f : QueryFilters)
    (st : List MemoryRow) (r : MemoryRow) (v : ℝ)
    (hv : r.effective_importance = some v) (hlt : v < cfg.THRESHOLD) :
    r ∉ queryLayerRows cfg f false st
    ∧ (∀ r2, r2 ∈ queryLayerRows cfg f false st
        ↔ r2 ∈ st ∧ rowMatchesFilters f r2 ∧ decayVisible cfg r2)
    ∧ (∀ r2, r2 ∈ queryLayerRows cfg f true st ↔ r2 ∈ st ∧ rowMatchesFilters f r2) := by
  have hchar : ∀ (b : Bool) (r2 : MemoryRow),
      r2 ∈ queryLayerRows cfg f b st ↔ r2 ∈ st ∧ compiledRowPred cfg f b r2 := by
    intro b r2
    unfold queryLayerRows
    rw [List.mem_filter]
    simp only [decide_eq_true_eq]
  refine ⟨?_, ?_, ?_⟩
  · intro hmem
    have h := ((hchar false r).mp hmem).2
    rcases h.2 with hb | hvis
    · cases hb
    · unfold decayVisible at hvis
      rw [hv] at hvis
      exact absurd hvis (not_le.mpr hlt)
  · intro r2
    rw [hchar false r2]
    unfold compiledRowPred
    constructor
    · rintro ⟨hmem, hmatch, hfalse | hvis⟩
      · cases hfalse
      · exact ⟨hmem, hmatch, hvis⟩
    · rintro ⟨hmem, hmatch, hvis⟩
      exact ⟨hmem, hmatch, Or.inr hvis⟩
  · intro r2
    rw [hchar true r2]
    unfold compiledRowPred
    constructor
    · rintro ⟨hmem, hmatch, _⟩
      exact ⟨hmem, hmatch⟩
    · rintro ⟨hmem, hmatch⟩
      exact ⟨hmem, hmatch, Or.inl rfl⟩

/-- A concrete decayed row (stored effective importance below the default
threshold) used by witnesses. -/
def decayedRow : MemoryRow :=
  { id := 3, timestamp := 100, content := "stale", event := "stale",
    context := "", emotional_intensity := 0.5, importance := 0.3,
    metadata := "{}", last_accessed := some 100, effective_importance := some 0.05,
    access_count := some 0 }

/-- C3, witness at a concrete decayed row under the default configuration. -/
theorem queryLayerRows_decay_visibility_witness :
    decayedRow.effective_importance = some 0.05
      ∧ (0.05 : ℝ) < defaultDecayConfig.THRESHOLD
      ∧ decayedRow ∉ queryLayerRows defaultDecayConfig emptyFilters false [decayedRow] := by
  have hv : decayedRow.effective_importance = some 0.05 := rfl
  have hlt : (0.05 : ℝ) < defaultDecayConfig.THRESHOLD := by
    norm_num [defaultDecayConfig]
  exact ⟨hv, hlt,
    (queryLayerRows_decay_visibility defaultDecayConfig emptyFilters [decayedRow]
      decayedRow 0.05 hv hlt).1⟩

/-- Which of the three decay columns exist in a layer's `memories` table. -/
structure MigrationCols where
  last_accessed : Bool
  effective_importance : Bool
  access_count : Bool

/-- A layer's `memories` table together with its column state.  A column that
does not exist is represented by its field being absent from every row
(`none`, or `some 0` for the defaulted integer column). -/
structure LayerTable where
  cols : MigrationCols
  rows : List MemoryRow

/-- Modelled from the spec: the column-addition half of the v2.2
`ensureSchema` (`server/database.js`, absent from the dump; the migration SQL
is recorded in `tests/decay.test.js`): `ALTER TABLE memories ADD COLUMN` for
each of `last_accessed REAL`, `effective_importance REAL`,
`access_count INTEGER DEFAULT 0`, skipping columns that already exist.  A
freshly added `REAL` column is `NULL` on every existing row; the defaulted
integer column is `0` on every existing row. -/
def addColumnsIfMissing (t : LayerTable) : LayerTable :=
  let t1 := if t.cols.last_accessed then t else
    { cols := { t.cols with last_accessed := true },
      rows := t.rows.map (fun r => { r with last_accessed := none }) }
  let t2 := if t1.cols.effective_importance then t1 else
    { cols := { t1.cols with effective_importance := true },
      rows := t1.rows.map (fun r => { r with effective_importance := none }) }
  if t2.cols.access_count then t2 else
    { cols := { t2.cols with access_count := true },
      rows := t2.rows.map (fun r => { r with access_count := some 0 }) }

/-- Modelled from the spec: the back-fill half of the v2.2 `ensureSchema`
(`UPDATE memories SET last_accessed = timestamp, effective_importance =
importance, access_count = 0 WHERE last_accessed IS NULL`). -/
def backfillRow (r : MemoryRow) : MemoryRow :=
  if r.last_accessed.isNone then
    { r with last_accessed := some r.timestamp, effective_importance := some r.importance,
             access_count := some 0 }
  else r

/-- Modelled from the spec: the v2.2 additive migration run by `ensureSchema`
on every store open — add the decay columns when missing, then back-fill rows
whose `last_accessed` is `NULL`. -/
def migrate (t : LayerTable) : LayerTable :=
  let t2 := addColumnsIfMissing t
  { t2 with rows := t2.rows.map backfillRow }

/-- Back-filling is idempotent on a row. -/
theorem backfillRow_idem (r : MemoryRow) : backfillRow (backfillRow r) = backfillRow r := by
  unfold backfillRow
  by_cases h : r.last_accessed.isNone
  · rw [if_pos h]
    rfl
  · rw [if_neg h, if_neg h]

/-- After a migration every decay column exists. -/
theorem migrate_cols (t : LayerTable) :
    (migrate t).cols = MigrationCols.mk true true true := by
  rcases t with ⟨⟨b1, b2, b3⟩, rows⟩
  cases b1 <;> cases b2 <;> cases b3 <;> rfl

/-- After a migration every row has a non-`NULL` `last_accessed`. -/
theorem migrate_rows_accessed (t : LayerTable) :
    ∀ r ∈ (migrate t).rows, r.last_accessed.isNone = false := by
  intro r hr
  have hmap : ∃ r0 ∈ (addColumnsIfMissing t).rows, backfillRow r0 = r := by
    rcases List.mem_map.mp hr with ⟨r0, hr0, hr0eq⟩
    exact ⟨r0, hr0, hr0eq⟩
  rcases hmap with ⟨r0, _, rfl⟩
  unfold backfillRow
  by_cases h : r0.last_accessed.isNone
  · rw [if_pos h]
    rfl
  · rw [if_neg h]
    cases hb : r0.last_accessed.isNone
    · rfl
    · exact absurd hb h

/-- C6.  The additive migration is idempotent (running it a second time,
as a second store open does, changes nothing), it loses no row, and on a
pre-migration table it back-fills every existing row with
`last_accessed = timestamp`, `effective_importance = importance` and
`access_count = 0` while leaving the other fields untouched. -/
theorem migration_idempotent_backfill (t : LayerTable) :
    migrate (migrate t) = migrate t
    ∧ (migrate t).rows.length = t.rows.length
    ∧ (t.cols = MigrationCols.mk false false false →
        (migrate t).rows = t.rows.map (fun r =>
          { r with last_accessed := some r.timestamp,
                   effective_importance := some r.importance, access_count := some 0 })) := by
  refine ⟨?_, ?_, ?_⟩
  · have haccessed := migrate_rows_accessed t
    rcases hm : migrate t with ⟨cols, rows⟩
    have hcols : cols = MigrationCols.mk true true true := by
      have := migrate_cols t
      rw [hm] at this
      exact this
    rw [hm] at haccessed
    subst hcols
    have hrows : rows.map backfillRow = rows := by
      have h2 : rows.map backfillRow = rows.map id :=
        List.map_congr_left (fun r hr => by
          unfold backfillRow
          rw [haccessed r hr]
          rfl)
      rw [h2, List.map_id]
    have hstep : migrate (LayerTable.mk (MigrationCols.mk true true true) rows)
        = LayerTable.mk (MigrationCols.mk true true true) (rows.map backfillRow) := rfl
    rw [hstep, hrows]
  · rcases t with ⟨⟨b1, b2, b3⟩, rows⟩
    cases b1 <;> cases b2 <;> cases b3 <;>
      simp [migrate, addColumnsIfMissing]
  · intro hpre
    rcases t with ⟨⟨b1, b2, b3⟩, rows⟩
    injection hpre with h1 h2 h3
    subst h1
    subst h2
    subst h3
    have hstep : (migrate (LayerTable.mk (MigrationCols.mk false false false) rows)).rows
        = (((rows.map (fun r => { r with last_accessed := none })).map
            (fun r => { r with effective_importance := none })).map
            (fun r => { r with access_count := some 0 })).map backfillRow := rfl
    rw [hstep]
    simp only [List.map_map]
    apply List.map_congr_left
    intro r _
    rfl

/-- C6, witness: the migration of a concrete one-row pre-migration table,
with the idempotence and back-fill conclusions instantiated. -/
theorem migration_idempotent_backfill_witness :
    (LayerTable.mk (MigrationCols.mk false false false) [mortalRow]).cols
        = MigrationCols.mk false false false
      ∧ migrate (migrate (LayerTable.mk (MigrationCols.mk false false false) [mortalRow]))
          = migrate (LayerTable.mk (MigrationCols.mk false false false) [mortalRow])
      ∧ (migrate (LayerTable.mk (MigrationCols.mk false false false) [mortalRow])).rows
          = [mortalRow].map (fun r =>
              { r with last_accessed := some r.timestamp,
                       effective_importance := some r.importance, access_count := some 0 }) := by
  have h := migration_idempotent_backfill
    (LayerTable.mk (MigrationCols.mk false false false) [mortalRow])
  exact ⟨rfl, h.1, h.2.2 rfl⟩

/-- One write target of the coordinator (a layer file on one write path):
its rows and whether its storage engine currently accepts writes. -/
structure WriteTarget where
  rows : List MemoryRow
  healthy : Bool

/-- Executing one prepared insert on one target (`db.runAsync` in
`CascadeDatabase.dualWrite`): `none` models a thrown storage error. -/
def runInsert (t : WriteTarget) (r : MemoryRow) : Option WriteTarget :=
  if t.healthy then some { t with rows := t.rows ++ [r] } else none

/-- Embedding of `CascadeDatabase.dualWrite` (`server/database.js`): the write
connection list is ordered primary (disk truth) first, then the secondary
cache.  A failure at index 0 raises the `Failed to write to primary storage`
database error; a failure at a later index is logged and skipped, leaving that
target unchanged. -/
def dualWrite (r : MemoryRow) : List WriteTarget → Except String (List WriteTarget)
  | [] => Except.ok []
  | primary :: rest =>
    match runInsert primary r with
    | none => Except.error ("Failed to write to primary storage")
    | some p2 => Except.ok (p2 :: rest.map (fun t => (runInsert t r).getD t))

/-- Embedding of `CascadeDatabase.getLastInsertId` (`server/database.js`):
`SELECT last_insert_rowid()` on the first (primary) write connection. -/
def getLastInsertId (targets : List WriteTarget) : Option ℕ :=
  match targets with
  | [] => none
  | primary :: _ => primary.rows.getLast?.map MemoryRow.id

/-- C7.  Writes go to the primary (truth) target first: when the primary
write fails the operation aborts with the write error; when the primary write
succeeds the operation succeeds — whatever the health of the secondary cache
targets — with the row appended to the primary store, and the generated id
reported for the operation is read from the primary connection. -/
theorem dualWrite_truth_first (primary : WriteTarget) (rest : List WriteTarget)
    (r : MemoryRow) :
    (primary.healthy = false →
      dualWrite r (primary :: rest) = Except.error ("Failed to write to primary storage"))
    ∧ (primary.healthy = true →
        dualWrite r (primary :: rest)
            = Except.ok ({ primary with rows := primary.rows ++ [r] }
                :: rest.map (fun t => (runInsert t r).getD t))
          ∧ r ∈ ({ primary with rows := primary.rows ++ [r] } : WriteTarget).rows
          ∧ getLastInsertId ({ primary with rows := primary.rows ++ [r] }
              :: rest.map (fun t => (runInsert t r).getD t)) = some r.id) := by
  constructor
  · intro hfail
    have hrunf : runInsert primary r = none := by
      unfold runInsert
      rw [hfail]
      rfl
    simp only [dualWrite, hrunf]
  · intro hok
    have hrun : runInsert primary r = some { primary with rows := primary.rows ++ [r] } := by
      unfold runInsert
      rw [hok]
      rfl
    refine ⟨?_, ?_, ?_⟩
    · simp only [dualWrite, hrun]
    · simp
    · show Option.map MemoryRow.id (primary.rows ++ [r]).getLast? = some r.id
      rw [List.getLast?_concat]
      rfl

/-- A healthy concrete write target used by witnesses. -/
def healthyTarget : WriteTarget := { rows := [immortalRow], healthy := true }

/-- A failing concrete write target used by witnesses. -/
def failingTarget : WriteTarget := { rows := [], healthy := false }

/-- C7, witness: a healthy primary with a failing secondary cache — the
operation succeeds, the row lands in the primary store, and the reported id is
the primary's last insert id. -/
theorem dualWrite_truth_first_witness :
    healthyTarget.healthy = true
      ∧ (dualWrite mortalRow (healthyTarget :: [failingTarget])
            = Except.ok ({ healthyTarget with rows := healthyTarget.rows ++ [mortalRow] }
                :: [failingTarget].map (fun t => (runInsert t mortalRow).getD t))
          ∧ mortalRow ∈ ({ healthyTarget with
              rows := healthyTarget.rows ++ [mortalRow] } : WriteTarget).rows
          ∧ getLastInsertId ({ healthyTarget with rows := healthyTarget.rows ++ [mortalRow] }
              :: [failingTarget].map (fun t => (runInsert t mortalRow).getD t))
            = some mortalRow.id) :=
  ⟨rfl, (dualWrite_truth_first healthyTarget [failingTarget] mortalRow).2 rfl⟩

/-- Embedding of `escapeLikePattern` (`server/database.js`) at the character
level: `str.replace(/[%_\\]/g, ...)` prepends a backslash to every `%`, `_`
and `\` of the fragment. -/
def escList (cs : List Char) : List Char :=
  cs.flatMap (fun c => if c = '%' ∨ c = '_' ∨ c = '\\' then ['\\', c] else [c])

/-- Embedding of `escapeLikePattern` (`server/database.js`). -/
def escapeLikePattern (s : String) : String :=
  String.mk (escList s.data)

/-- A bound parameter of a compiled statement. -/
inductive SqlParam where
  | num (x : ℝ)
  | str (s : String)

/-- The conditions contributed by one optional filter key: a condition string
and its bound parameters when the key is present, nothing otherwise. -/
def optPart {α : Type} (o : Option α) (p : α → String × List SqlParam) :
    List (String × List SqlParam) :=
  match o with
  | some a => [p a]
  | none => []

/-- Embedding of `buildWhereClause` (`server/database.js`): the conditions
with their parameters, in source order.  Every condition string is a constant;
user-supplied values appear only in the parameter lists. -/
def condParts (f : QueryFilters) : List (String × List SqlParam) :=
  optPart f.importance_min (fun v => (("importance >= ?"), [SqlParam.num v]))
    ++ optPart f.importance_max (fun v => (("importance <= ?"), [SqlParam.num v]))
    ++ optPart f.emotional_intensity_min
        (fun v => (("emotional_intensity >= ?"), [SqlParam.num v]))
    ++ optPart f.emotional_intensity_max
        (fun v => (("emotional_intensity <= ?"), [SqlParam.num v]))
    ++ optPart f.timestamp_after (fun v => (("timestamp >= ?"), [SqlParam.num v]))
    ++ optPart f.timestamp_before (fun v => (("timestamp <= ?"), [SqlParam.num v]))
    ++ optPart f.content_contains (fun s =>
        (("(event LIKE ? ESCAPE '\\' OR content LIKE ? ESCAPE '\\')"),
          [SqlParam.str ("%" ++ escapeLikePattern s ++ "%"),
            SqlParam.str ("%" ++ escapeLikePattern s ++ "%")]))
    ++ optPart f.context_contains (fun s =>
        (("context LIKE ? ESCAPE '\\'"), [SqlParam.str ("%" ++ escapeLikePattern s ++ "%")]))
    ++ optPart f.id (fun n => (("id = ?"), [SqlParam.num (n : ℝ)]))

/-- Embedding of the return value of `buildWhereClause`
(`server/database.js`): the conditions joined with `AND`, and the flattened
parameter list. -/
def buildWhereClause (f : QueryFilters) : String × List SqlParam :=
  (String.intercalate (" AND ") ((condParts f).map Prod.fst),
    (condParts f).flatMap Prod.snd)

/-- Which filter keys are present in a payload. -/
structure FilterMask where
  importance_min : Bool
  importance_max : Bool
  emotional_intensity_min : Bool
  emotional_intensity_max : Bool
  timestamp_after : Bool
  timestamp_before : Bool
  content_contains : Bool
  context_contains : Bool
  id : Bool

/-- The key-presence mask of a filter payload. -/
def QueryFilters.mask (f : QueryFilters) : FilterMask :=
  { importance_min := f.importance_min.isSome, importance_max := f.importance_max.isSome,
    emotional_intensity_min := f.emotional_intensity_min.isSome,
    emotional_intensity_max := f.emotional_intensity_max.isSome,
    timestamp_after := f.timestamp_after.isSome, timestamp_before := f.timestamp_before.isSome,
    content_contains := f.content_contains.isSome,
    context_contains := f.context_contains.isSome, id := f.id.isSome }

/-- The condition text contributed by each present key, as a function of the
mask alone. -/
def maskText (m : FilterMask) : List String :=
  (if m.importance_min then [("importance >= ?")] else [])
    ++ (if m.importance_max then [("importance <= ?")] else [])
    ++ (if m.emotional_intensity_min then [("emotional_intensity >= ?")] else [])
    ++ (if m.emotional_intensity_max then [("emotional_intensity <= ?")] else [])
    ++ (if m.timestamp_after then [("timestamp >= ?")] else [])
    ++ (if m.timestamp_before then [("timestamp <= ?")] else [])
    ++ (if m.content_contains
        then [("(event LIKE ? ESCAPE '\\' OR content LIKE ? ESCAPE '\\')")] else [])
    ++ (if m.context_contains then [("context LIKE ? ESCAPE '\\'")] else [])
    ++ (if m.id then [("id = ?")] else [])

/-- The emitted condition text is a function of the key-presence mask only. -/
theorem condParts_text (f : QueryFilters) :
    (condParts f).map Prod.fst = maskText f.mask := by
  have h1 : (optPart f.importance_min
        (fun v => (("importance >= ?"), [SqlParam.num v]))).map Prod.fst
      = if f.importance_min.isSome then [("importance >= ?")] else [] := by
    cases f.importance_min <;> rfl
  have h2 : (optPart f.importance_max
        (fun v => (("importance <= ?"), [SqlParam.num v]))).map Prod.fst
      = if f.importance_max.isSome then [("importance <= ?")] else [] := by
    cases f.importance_max <;> rfl
  have h3 : (optPart f.emotional_intensity_min
        (fun v => (("emotional_intensity >= ?"), [SqlParam.num v]))).map Prod.fst
      = if f.emotional_intensity_min.isSome then [("emotional_intensity >= ?")] else [] := by
    cases f.emotional_intensity_min <;> rfl
  have h4 : (optPart f.emotional_intensity_max
        (fun v => (("emotional_intensity <= ?"), [SqlParam.num v]))).map Prod.fst
      = if f.emotional_intensity_max.isSome then [("emotional_intensity <= ?")] else [] := by
    cases f.emotional_intensity_max <;> rfl
  have h5 : (optPart f.timestamp_after
        (fun v => (("timestamp >= ?"), [SqlParam.num v]))).map Prod.fst
      = if f.timestamp_after.isSome then [("timestamp >= ?")] else [] := by
    cases f.timestamp_after <;> rfl
  have h6 : (optPart f.timestamp_before
        (fun v => (("timestamp <= ?"), [SqlParam.num v]))).map Prod.fst
      = if f.timestamp_before.isSome then [("timestamp <= ?")] else [] := by
    cases f.timestamp_before <;> rfl
  have h7 : (optPart f.content_contains (fun s =>
        (("(event LIKE ? ESCAPE '\\' OR content LIKE ? ESCAPE '\\')"),
          [SqlParam.str ("%" ++ escapeLikePattern s ++ "%"),
            SqlParam.str ("%" ++ escapeLikePattern s ++ "%")]))).map Prod.fst
      = if f.content_contains.isSome
        then [("(event LIKE ? ESCAPE '\\' OR content LIKE ? ESCAPE '\\')")] else [] := by
    cases f.content_contains <;> rfl
  have h8 : (optPart f.context_contains (fun s =>
        (("context LIKE ? ESCAPE '\\'"),
          [SqlParam.str ("%" ++ escapeLikePattern s ++ "%")]))).map Prod.fst
      = if f.context_contains.isSome then [("context LIKE ? ESCAPE '\\'")] else [] := by
    cases f.context_contains <;> rfl
  have h9 : (optPart f.id (fun n => (("id = ?"), [SqlParam.num (n : ℝ)]))).map Prod.fst
      = if f.id.isSome then [("id = ?")] else [] := by
    cases f.id <;> rfl
  unfold condParts maskText QueryFilters.mask
  simp only [List.map_append]
  rw [h1, h2, h3, h4, h5, h6, h7, h8, h9]

/-- A token of a `LIKE` pattern under `ESCAPE '\'`: the multi-character
wildcard `%`, the single-character wildcard `_`, or one literally matched
character. -/
inductive LikeToken where
  | anySeq
  | anyOne
  | lit (c : Char)
deriving DecidableEq

/-- Tokenization of a `LIKE` pattern under `ESCAPE '\'`: a backslash makes the
next character literal, unescaped `%` and `_` are wildcards, every other
character is literal.  (A trailing lone escape character cannot arise from the
compiler's patterns; it is read as a literal backslash here.) -/
def likeLex : List Char → List LikeToken
  | [] => []
  | c :: rest =>
    if c = '\\' then
      match rest with
      | [] => [LikeToken.lit '\\']
      | c2 :: rest2 => LikeToken.lit c2 :: likeLex rest2
    else if c = '%' then LikeToken.anySeq :: likeLex rest
    else if c = '_' then LikeToken.anyOne :: likeLex rest
    else LikeToken.lit c :: likeLex rest

/-- Unfolding lemma for `likeLex` at a cons cell. -/
theorem likeLex_cons (c : Char) (rest : List Char) :
    likeLex (c :: rest)
      = if c = '\\' then
          match rest with
          | [] => [LikeToken.lit '\\']
          | c2 :: rest2 => LikeToken.lit c2 :: likeLex rest2
        else if c = '%' then LikeToken.anySeq :: likeLex rest
        else if c = '_' then LikeToken.anyOne :: likeLex rest
        else LikeToken.lit c :: likeLex rest := by
  rw [likeLex.eq_def]

/-- The escaped fragment followed by a closing `%` wildcard tokenizes as the
fragment's characters, all literal, followed by the wildcard. -/
theorem likeLex_escList_append (cs : List Char) :
    likeLex (escList cs ++ ['%']) = cs.map LikeToken.lit ++ [LikeToken.anySeq] := by
  induction cs with
  | nil =>
    show likeLex ['%'] = [LikeToken.anySeq]
    rfl
  | cons c cs ih =>
    by_cases h : c = '%' ∨ c = '_' ∨ c = '\\'
    · have hesc : escList (c :: cs) = '\\' :: c :: escList cs := by
        unfold escList
        rw [List.flatMap_cons, if_pos h]
        rfl
      rw [hesc]
      show likeLex ('\\' :: (c :: (escList cs ++ ['%']))) = _
      rw [show likeLex ('\\' :: (c :: (escList cs ++ ['%'])))
          = LikeToken.lit c :: likeLex (escList cs ++ ['%']) from rfl, ih]
      rfl
    · push_neg at h
      obtain ⟨h1, h2, h3⟩ := h
      have hesc : escList (c :: cs) = c :: escList cs := by
        unfold escList
        rw [List.flatMap_cons, if_neg (by tauto)]
        rfl
      rw [hesc]
      show likeLex (c :: (escList cs ++ ['%'])) = _
      rw [likeLex_cons, if_neg h3, if_neg h1, if_neg h2, ih]
      rfl

/-- C8.  Query compiler safety: the emitted condition text is a function of
the key-presence mask only (two payloads with the same present keys compile to
the same statement text — user values never reach the text, only the parameter
list); the `content_contains` key compiles to the fixed clause
`(event LIKE ? ESCAPE '\' OR content LIKE ? ESCAPE '\')` with the escaped
fragment wrapped in `%…%` among the parameters; and the wrapped escaped
fragment tokenizes under `ESCAPE '\'` as the fragment's characters matched
literally between two `%` wildcards, so `%`, `_`, `\` of the user fragment are
matched literally. -/
theorem buildWhereClause_safety (f g : QueryFilters) (s : String)
    (hmask : f.mask = g.mask) (hcc : f.content_contains = some s) :
    (buildWhereClause f).1 = (buildWhereClause g).1
    ∧ ("(event LIKE ? ESCAPE '\\' OR content LIKE ? ESCAPE '\\')")
        ∈ (condParts f).map Prod.fst
    ∧ SqlParam.str ("%" ++ escapeLikePattern s ++ "%") ∈ (buildWhereClause f).2
    ∧ likeLex (("%" ++ escapeLikePattern s ++ "%").data)
        = LikeToken.anySeq :: (s.data.map LikeToken.lit ++ [LikeToken.anySeq]) := by
  have hpair : (("(event LIKE ? ESCAPE '\\' OR content LIKE ? ESCAPE '\\')"),
      [SqlParam.str ("%" ++ escapeLikePattern s ++ "%"),
        SqlParam.str ("%" ++ escapeLikePattern s ++ "%")]) ∈ condParts f := by
    unfold condParts
    rw [hcc]
    simp [optPart]
  refine ⟨?_, ?_, ?_, ?_⟩
  · show String.intercalate (" AND ") ((condParts f).map Prod.fst)
        = String.intercalate (" AND ") ((condParts g).map Prod.fst)
    rw [condParts_text f, condParts_text g, hmask]
  · exact List.mem_map_of_mem Prod.fst hpair
  · show SqlParam.str ("%" ++ escapeLikePattern s ++ "%") ∈ (condParts f).flatMap Prod.snd
    rw [List.mem_flatMap]
    exact ⟨_, hpair, by simp⟩
  · have hdata : ("%" ++ escapeLikePattern s ++ "%").data
        = '%' :: (escList s.data ++ ['%']) := by
      simp [String.data_append, escapeLikePattern]
    rw [hdata, likeLex_cons, if_neg (by decide), if_pos rfl, likeLex_escList_append]

/-- A concrete filter payload with a present lower bound and substring key. -/
def filtersA : QueryFilters :=
  { emptyFilters with importance_min := some 0.5, content_contains := some ("100%") }

/-- A second payload with the same present keys but different values. -/
def filtersB : QueryFilters :=
  { emptyFilters with importance_min := some 0.9, content_contains := some ("abc") }

/-- C8, witness at two concrete payloads sharing a key-presence mask, with the
search fragment `100%` whose `%` must be matched literally. -/
theorem buildWhereClause_safety_witness :
    filtersA.mask = filtersB.mask
      ∧ filtersA.content_contains = some ("100%")
      ∧ ((buildWhereClause filtersA).1 = (buildWhereClause filtersB).1
          ∧ ("(event LIKE ? ESCAPE '\\' OR content LIKE ? ESCAPE '\\')")
              ∈ (condParts filtersA).map Prod.fst
          ∧ SqlParam.str ("%" ++ escapeLikePattern ("100%") ++ "%")
              ∈ (buildWhereClause filtersA).2
          ∧ likeLex (("%" ++ escapeLikePattern ("100%") ++ "%").data)
              = LikeToken.anySeq
                  :: (("100%").data.map LikeToken.lit ++ [LikeToken.anySeq])) :=
  ⟨rfl, rfl, buildWhereClause_safety filtersA filtersB ("100%") rfl rfl⟩

/-- The column whitelist `ALLOWED_COLUMNS` of `server/database.js`. -/
def ALLOWED_COLUMNS : List String :=
  ["id", "timestamp", "content", "event", "context", "emotional_intensity", "importance"]

/-- The direction whitelist `ALLOWED_ORDER_DIRECTIONS` of `server/database.js`. -/
def ALLOWED_ORDER_DIRECTIONS : List String :=
  ["ASC", "DESC"]

/-- ASCII-style lowercasing of a string (`String.prototype.toLowerCase`). -/
def lowerStr (s : String) : String :=
  String.mk (s.data.map Char.toLower)

/-- ASCII-style uppercasing of a string (`String.prototype.toUpperCase`). -/
def upperStr (s : String) : String :=
  String.mk (s.data.map Char.toUpper)

/-- Split a character list at every whitespace character, keeping empty
chunks (the chunk structure of `split`). -/
def splitChunks : List Char → List (List Char)
  | [] => [[]]
  | c :: rest =>
    match splitChunks rest with
    | [] => [[]]
    | chunk :: chunks =>
      if c.isWhitespace then [] :: chunk :: chunks
      else (c :: chunk) :: chunks

/-- `orderBy.trim().split(/\s+/)`: the maximal whitespace-free fragments.
Splitting at every whitespace character and dropping empty chunks yields
exactly the fragments `split(/\s+/)` produces on the trimmed string. -/
def splitOrderBy (s : String) : List String :=
  ((splitChunks s.data).map String.mk).filter (fun p => p ≠ "")

/-- The column half of an `order_by` string: the first fragment, lowercased
(empty when there is none). -/
def orderByColumn (s : String) : String :=
  lowerStr (((splitOrderBy s).get? 0).getD (""))

/-- The direction half of an `order_by` string: the second fragment,
uppercased, defaulting to `DESC` when absent. -/
def orderByDirection (s : String) : String :=
  match (splitOrderBy s).get? 1 with
  | some d => upperStr d
  | none => ("DESC")

/-- Embedding of `sanitizeOrderBy` (`server/database.js`): a falsy argument
yields `timestamp DESC`; a column outside the whitelist yields
`timestamp DESC`; a whitelisted column with a direction outside
`{ASC, DESC}` keeps the column and forces `DESC`; otherwise column and
direction are kept. -/
def sanitizeOrderBy (orderBy : Option String) : String :=
  match orderBy with
  | none => ("timestamp DESC")
  | some s =>
    if s = "" then ("timestamp DESC")
    else
      let column := orderByColumn s
      let direction := orderByDirection s
      if column ∈ ALLOWED_COLUMNS then
        if direction ∈ ALLOWED_ORDER_DIRECTIONS then column ++ (" ") ++ direction
        else column ++ (" DESC")
      else ("timestamp DESC")

/-- Unfolding lemma for `sanitizeOrderBy` at a present argument. -/
theorem sanitizeOrderBy_some (s : String) :
    sanitizeOrderBy (some s)
      = if s = "" then ("timestamp DESC")
        else if orderByColumn s ∈ ALLOWED_COLUMNS then
          if orderByDirection s ∈ ALLOWED_ORDER_DIRECTIONS
          then orderByColumn s ++ (" ") ++ orderByDirection s
          else orderByColumn s ++ (" DESC")
        else ("timestamp DESC") := rfl

/-- C9, counterexample.  `importance SIDEWAYS` has a whitelisted column and an
invalid direction, so the claim requires the clause to collapse to
`timestamp DESC`; the source instead keeps the column and yields
`importance DESC`. -/
theorem sanitizeOrderBy_invalid_direction_counterexample :
    orderByDirection ("importance SIDEWAYS") ∉ ALLOWED_ORDER_DIRECTIONS
      ∧ sanitizeOrderBy (some ("importance SIDEWAYS")) = ("importance DESC")
      ∧ sanitizeOrderBy (some ("importance SIDEWAYS")) ≠ ("timestamp DESC") := by
  refine ⟨by decide, by decide, by decide⟩

/-- C9, amended.  An `order_by` whose column is outside the whitelist
collapses to `timestamp DESC`; one with a whitelisted column but a direction
other than ascending/descending keeps the column and collapses only the
direction, yielding `column DESC`. -/
theorem sanitizeOrderBy_fallback (s : String) :
    (orderByColumn s ∉ ALLOWED_COLUMNS → sanitizeOrderBy (some s) = ("timestamp DESC"))
    ∧ (orderByColumn s ∈ ALLOWED_COLUMNS → orderByDirection s ∉ ALLOWED_ORDER_DIRECTIONS →
        sanitizeOrderBy (some s) = orderByColumn s ++ (" DESC")) := by
  constructor
  · intro hcol
    rw [sanitizeOrderBy_some]
    by_cases hs : s = ""
    · rw [if_pos hs]
    · rw [if_neg hs, if_neg hcol]
  · intro hcol hdir
    rw [sanitizeOrderBy_some]
    by_cases hs : s = ""
    · exfalso
      subst hs
      exact absurd hcol (by decide)
    · rw [if_neg hs, if_pos hcol, if_neg hdir]

/-- C9, witness for the amended theorem at the counterexample input. -/
theorem sanitizeOrderBy_fallback_witness :
    orderByColumn ("importance SIDEWAYS") ∈ ALLOWED_COLUMNS
      ∧ orderByDirection ("importance SIDEWAYS") ∉ ALLOWED_ORDER_DIRECTIONS
      ∧ sanitizeOrderBy (some ("importance SIDEWAYS"))
          = orderByColumn ("importance SIDEWAYS") ++ (" DESC") :=
  ⟨by decide, by decide,
    (sanitizeOrderBy_fallback ("importance SIDEWAYS")).2 (by decide) (by decide)⟩
